import Mathlib

/-!
Shallow embedding of the dependency-injection engine in
`src/tiny_fastapi_di/core.py` (class `TinyDiCtx`): context composition
(`with_maps`), memoized resolution (`_resolve_fn`), invocation with cycle
guard and suspension classification (`_invoke_fn`), the argument solver
(`_solve_arg`), the cleanup ledger (`_cleanup`) and the entry point
(`call_fn`).

Callables are identified by `Nat` (Python object identity).  Function
bodies are modelled as pure functions from solved keyword arguments to a
classified result (plain value, generator paused at its first yield,
async generator, or awaitable).  The interpreter threads an explicit
state (the mutable fields of `TinyDiCtx`) plus a ghost log of body
invocations, and is driven by a fuel parameter so that it is structurally
recursive and computes by `rfl`/`decide`.
-/

namespace TinyDi

/-- A dependency marker: models `Depends`-shaped objects.  `mtype` is the
identity of the marker's class (checked against the context's
`depends_types`), `dependency` the optional target callable, `useCache`
the `use_cache` flag (`getattr(default, "use_cache", True)` yields a
plain `Bool`). -/
structure Marker where
  mtype : Nat
  dependency : Option Nat
  useCache : Bool
deriving DecidableEq, Repr

/-- Runtime values flowing through the engine. -/
inductive Value where
  | unit : Value
  | nat (n : Nat) : Value
  | str (s : String) : Value
  | pair (a b : Value) : Value
  | markerVal (m : Marker) : Value
  | ctxRef : Value
  | tagged (ty : Option Nat) (v : Value) : Value
deriving DecidableEq, Repr

/-- One metadata entry of an `Annotated[...]` annotation. -/
inductive Meta where
  | marker (m : Marker) : Meta
  | other : Meta
deriving DecidableEq, Repr

/-- A parameter's declared annotation: absent (`Parameter.empty`), a plain
type, or `Annotated[ty, metas...]`. -/
inductive Ann where
  | empty : Ann
  | plain (ty : Nat) : Ann
  | annotated (ty : Nat) (metas : List Meta) : Ann
deriving DecidableEq, Repr

/-- A parameter's declared default value: absent (`Parameter.empty`), a
plain value, or a marker object used as default. -/
inductive Dflt where
  | empty : Dflt
  | value (v : Value) : Dflt
  | marker (m : Marker) : Dflt
deriving DecidableEq, Repr

/-- One declared parameter of a callable (`inspect.Parameter`). -/
structure Param where
  name : String
  ann : Ann
  dflt : Dflt
deriving DecidableEq, Repr

/-- Behaviour of a paused generator when resumed during cleanup: it may
stop (`StopIteration`/`StopAsyncIteration`), raise, or yield again. -/
inductive TdBehavior where
  | stop : TdBehavior
  | fail (msg : String) : TdBehavior
  | yieldAgain (v : Value) : TdBehavior
deriving DecidableEq, Repr

/-- Classified result of calling a callable's body: plain value,
sync generator (pre-yield value plus resume behaviour), async generator,
awaitable, or an exception raised by the callable itself. -/
inductive FnResult where
  | plain (v : Value) : FnResult
  | gen (first : Value) (td : TdBehavior) : FnResult
  | agen (first : Value) (td : TdBehavior) : FnResult
  | awaitable (v : Value) : FnResult
  | raises (msg : String) : FnResult

/-- A callable: declared parameters plus a body mapping the solved
keyword arguments to a classified result. -/
structure Fn where
  params : List Param
  body : List (String × Value) → FnResult

/-- Error kinds of the engine (`TypeError`, `RecursionError`, validator
failures, generator failures during cleanup, and fuel exhaustion of the
interpreter). -/
inductive ErrKind where
  | missingValue (pname : String) : ErrKind
  | invalidDependency (pname : String) : ErrKind
  | circular (fn : Nat) : ErrKind
  | notCallable (fn : Nat) : ErrKind
  | validation (msg : String) : ErrKind
  | userError (msg : String) : ErrKind
  | resumeFail (fn : Nat) (msg : String) : ErrKind
  | outOfFuel : ErrKind
deriving DecidableEq, Repr

/-- A Python exception: a kind plus the `__context__` chain (`mk` when
`__context__` is `None`, `chain` when it points to another exception). -/
inductive Err where
  | mk (kind : ErrKind) : Err
  | chain (kind : ErrKind) (ctx : Err) : Err
deriving DecidableEq, Repr

/-- The kind of an exception. -/
def Err.kindOf : Err → ErrKind
  | .mk k => k
  | .chain k _ => k

/-- The `__context__` of an exception. -/
def Err.ctxOf : Err → Option Err
  | .mk _ => none
  | .chain _ c => some c

/-- Build an exception from a kind and an optional `__context__`. -/
def Err.withCtx (k : ErrKind) : Option Err → Err
  | none => Err.mk k
  | some e => Err.chain k e

/-- Identity of the `Depends` marker class shipped with the engine. -/
def dependsKey : Nat := 100

/-- An entry of the teardown stack: the producing callable's identity,
whether it is an async generator, and its resume behaviour. -/
structure GenEntry where
  fn : Nat
  isAsync : Bool
  td : TdBehavior
deriving DecidableEq, Repr

/-- Association-list lookup with Python-dict semantics (first match wins;
insertion is modelled by prepending). -/
def dlookup {α β : Type} [DecidableEq α] : List (α × β) → α → Option β
  | [], _ => none
  | (k, v) :: rest, key => if key = k then some v else dlookup rest key

/-- Identity of the `TinyDiCtx` class itself, used as the key of the
self-reference entry seeded into the memo cache by `__post_init__`. -/
def tinyDiCtxKey : Nat := 0

/-- The state of one `TinyDiCtx` instance: the four configuration fields
(`value_map`, `fn_map`, `validator`, `depends_types`) and the private
resolution state (`_cache`, `_lock`, `_cleanup_stack`), plus a ghost log
of body invocations in execution order. -/
structure St where
  value_map : List (String × Value)
  fn_map : List (Nat × Nat)
  validator : Option Nat
  depends_types : List Nat
  cache : List (Nat × Value)
  lock : List Nat
  cleanup_stack : List GenEntry
  invocations : List Nat
deriving DecidableEq, Repr

/-- The fixed environment of a run: the program (callable identity to
callable) and the behaviour of each validator identity
(`validator.validate(type_, value)`). -/
structure Env where
  prog : Nat → Option Fn
  vals : Nat → Option Nat → Value → Except String Value

/-- `__post_init__`: the freshly initialized private state, with the memo
cache seeded with the self-reference entry. -/
def freshCache : List (Nat × Value) := [(tinyDiCtxKey, Value.ctxRef)]

/-- `empty_di_ctx`: the module-level empty context (`value_map={}`,
`fn_map={}`, `validator=None`, `depends_types=(Depends,)`), with private
state as initialized by `__post_init__`. -/
def emptyCtx : St :=
  { value_map := []
    fn_map := []
    validator := none
    depends_types := [dependsKey]
    cache := freshCache
    lock := []
    cleanup_stack := []
    invocations := [] }

/-- `with_maps`: compose a new context from a base one.  `none` for
`fnMapA`/`validatorA`/`dependsTypesA` models the `no_value` sentinel
(argument omitted); `some x` models an explicitly passed argument, where
for the validator `x` itself is an `Option` (explicitly passing `None`
is `some none`).  Named values merge into `value_map`, a passed `fn_map`
merges into the base one (overrides win), and the private state of the
result is freshly initialized. -/
def withMaps (st : St) (fnMapA : Option (List (Nat × Nat)))
    (validatorA : Option (Option Nat)) (dependsTypesA : Option (List Nat))
    (kwargs : List (String × Value)) : St :=
  { value_map := if kwargs = [] then st.value_map else kwargs ++ st.value_map
    fn_map := match fnMapA with
      | none => st.fn_map
      | some m => m ++ st.fn_map
    validator := match validatorA with
      | none => st.validator
      | some v => v
    depends_types := match dependsTypesA with
      | none => st.depends_types
      | some d => d
    cache := freshCache
    lock := []
    cleanup_stack := []
    invocations := [] }

/-- Scan the metadata of an `Annotated[...]` annotation for the first
entry recognized as a dependency marker (`isinstance(meta,
self.depends_types)`). -/
def findMarkerMeta (dt : List Nat) : List Meta → Option Marker
  | [] => none
  | Meta.marker m :: rest =>
      if m.mtype ∈ dt then some m else findMarkerMeta dt rest
  | Meta.other :: rest => findMarkerMeta dt rest

/-- The `Annotated` unwrapping step of `_solve_arg`: returns the
effective annotation (as the validator will see it) and the effective
default (the original one, or the first recognized marker found in the
annotation metadata). -/
def unwrapP (dt : List Nat) (p : Param) : Option Nat × Dflt :=
  match p.ann with
  | Ann.empty => (none, p.dflt)
  | Ann.plain ty => (some ty, p.dflt)
  | Ann.annotated ty metas =>
      match findMarkerMeta dt metas with
      | some m => (some ty, Dflt.marker m)
      | none => (some ty, p.dflt)

/-- `isinstance(default, self.depends_types)`: is the effective default a
recognized dependency marker? -/
def recognizedM (dt : List Nat) : Dflt → Option Marker
  | Dflt.marker m => if m.mtype ∈ dt then some m else none
  | Dflt.value (Value.markerVal m) => if m.mtype ∈ dt then some m else none
  | _ => none

/-- `getattr(default, "dependency", None) or annotation`: the callable a
marker resolves to. -/
def markerTarget (m : Marker) (ann : Option Nat) : Option Nat :=
  match m.dependency with
  | some d => some d
  | none => ann

/-- Apply `self.validator.validate(annotation, value)` when a validator
is configured, passing the value through unchanged otherwise. -/
def validate (env : Env) (st : St) (ann : Option Nat) (v : Value) :
    Except Err Value :=
  match st.validator with
  | none => Except.ok v
  | some vid =>
      match env.vals vid ann v with
      | Except.ok v2 => Except.ok v2
      | Except.error msg => Except.error (Err.mk (ErrKind.validation msg))

/-- `if fn in self.fn_map: fn = self.fn_map[fn]` — the one-step
substitution applied by `_resolve_fn`. -/
def subst1 (st : St) (fn : Nat) : Nat :=
  match dlookup st.fn_map fn with
  | some g => g
  | none => fn

/-- The three mutually recursive operations of the engine. -/
inductive CallK where
  | resolve (fn : Nat) (useCache : Bool) : CallK
  | invoke (fn : Nat) : CallK
  | solve (p : Param) : CallK

/-- Solve a list of parameters left to right, threading state and
stopping at the first failure (the dict comprehension in `_invoke_fn`). -/
def solveList (solver : St → Param → St × Except Err Value) :
    St → List Param → St × Except Err (List (String × Value))
  | st, [] => (st, Except.ok [])
  | st, p :: ps =>
      match solver st p with
      | (st', Except.error e) => (st', Except.error e)
      | (st', Except.ok v) =>
          match solveList solver st' ps with
          | (st'', Except.error e) => (st'', Except.error e)
          | (st'', Except.ok rest) => (st'', Except.ok ((p.name, v) :: rest))

/-- The interpreter: one fuel-indexed step function covering
`_resolve_fn` (`CallK.resolve`), `_invoke_fn` (`CallK.invoke`) and
`_solve_arg` (`CallK.solve`).  State is threaded through and kept on
error paths (Python exceptions do not roll back mutations). -/
def step (env : Env) : Nat → CallK → St → St × Except Err Value
  | 0, _, st => (st, Except.error (Err.mk ErrKind.outOfFuel))
  | fuel + 1, CallK.resolve fn0 uc, st =>
      let fn := subst1 st fn0
      if uc then
        match dlookup st.cache fn with
        | some v => (st, Except.ok v)
        | none =>
            match step env fuel (CallK.invoke fn) st with
            | (st', Except.ok v) =>
                ({ st' with cache := (fn, v) :: st'.cache }, Except.ok v)
            | (st', Except.error e) => (st', Except.error e)
      else step env fuel (CallK.invoke fn) st
  | fuel + 1, CallK.invoke fn, st =>
      if fn ∈ st.lock then
        (st, Except.error (Err.mk (ErrKind.circular fn)))
      else
        let st1 := { st with lock := fn :: st.lock }
        match env.prog fn with
        | none =>
            ({ st1 with lock := st1.lock.erase fn },
             Except.error (Err.mk (ErrKind.notCallable fn)))
        | some f =>
            match solveList (fun s p => step env fuel (CallK.solve p) s)
                st1 f.params with
            | (st2, Except.error e) =>
                ({ st2 with lock := st2.lock.erase fn }, Except.error e)
            | (st2, Except.ok kwargs) =>
                let st3 := { st2 with invocations := st2.invocations ++ [fn] }
                match f.body kwargs with
                | FnResult.plain v =>
                    ({ st3 with lock := st3.lock.erase fn }, Except.ok v)
                | FnResult.gen v td =>
                    ({ st3 with
                        cleanup_stack :=
                          st3.cleanup_stack ++ [⟨fn, false, td⟩],
                        lock := st3.lock.erase fn }, Except.ok v)
                | FnResult.agen v td =>
                    ({ st3 with
                        cleanup_stack :=
                          st3.cleanup_stack ++ [⟨fn, true, td⟩],
                        lock := st3.lock.erase fn }, Except.ok v)
                | FnResult.awaitable v =>
                    ({ st3 with lock := st3.lock.erase fn }, Except.ok v)
                | FnResult.raises msg =>
                    ({ st3 with lock := st3.lock.erase fn },
                     Except.error (Err.mk (ErrKind.userError msg)))
  | fuel + 1, CallK.solve p, st =>
      let ad := unwrapP st.depends_types p
      match recognizedM st.depends_types ad.2 with
      | some m =>
          match markerTarget m ad.1 with
          | none =>
              (st, Except.error (Err.mk (ErrKind.invalidDependency p.name)))
          | some f =>
              match step env fuel (CallK.resolve f m.useCache) st with
              | (st', Except.ok v) => (st', validate env st' ad.1 v)
              | (st', Except.error e) => (st', Except.error e)
      | none =>
          match dlookup st.value_map p.name with
          | some v => (st, validate env st ad.1 v)
          | none =>
              match p.dflt with
              | Dflt.empty =>
                  (st, Except.error (Err.mk (ErrKind.missingValue p.name)))
              | Dflt.value v => (st, validate env st ad.1 v)
              | Dflt.marker m =>
                  (st, validate env st ad.1 (Value.markerVal m))

/-- `_resolve_fn`. -/
def resolveFn (env : Env) (fuel : Nat) (st : St) (fn : Nat)
    (useCache : Bool) : St × Except Err Value :=
  step env fuel (CallK.resolve fn useCache) st

/-- `_invoke_fn`. -/
def invokeFn (env : Env) (fuel : Nat) (st : St) (fn : Nat) :
    St × Except Err Value :=
  step env fuel (CallK.invoke fn) st

/-- `_solve_arg`. -/
def solveArg (env : Env) (fuel : Nat) (st : St) (p : Param) :
    St × Except Err Value :=
  step env fuel (CallK.solve p) st

/-- Resuming one paused producer during cleanup: `stop` raises
`StopIteration` (caught and ignored), `yieldAgain` returns a value (no
exception), `fail` raises. -/
def resumeOnce (g : GenEntry) : Option ErrKind :=
  match g.td with
  | TdBehavior.stop => none
  | TdBehavior.yieldAgain _ => none
  | TdBehavior.fail msg => some (ErrKind.resumeFail g.fn msg)

/-- The loop of `_cleanup` over the already-reversed stack: resume each
entry, chain each new failure onto the previously recorded one
(`new_exc.__context__ = exception`), and log the resumed producer. -/
def cleanupLoop : List GenEntry → Option Err → List Nat × Option Err
  | [], exc => ([], exc)
  | g :: rest, exc =>
      let exc' := match resumeOnce g with
        | none => exc
        | some k => some (Err.withCtx k exc)
      let r := cleanupLoop rest exc'
      (g.fn :: r.1, r.2)

/-- `_cleanup`: visit the teardown stack in reverse insertion order;
return the log of resumed producers and the final chained failure, if
any. -/
def runCleanup (stack : List GenEntry) : List Nat × Option Err :=
  cleanupLoop stack.reverse none

/-- Raising exception `e2` while `e1` is being handled: CPython's
implicit exception chaining sets `e2.__context__ = e1`, overwriting any
previously recorded context of `e2`.  This happens when `_cleanup`
raises inside `__aexit__` while the resolution failure is in flight. -/
def chainOnto (e2 e1 : Err) : Err :=
  Err.chain e2.kindOf e1

/-- `call_fn`: compose a scoped context via `with_maps`, resolve the
target through the memoized path, then always run the cleanup ledger
(`async with` / `__aexit__`); combine the resolution outcome with the
cleanup outcome the way the `async with` statement does.  Returns the
final context state, the cleanup log, and the single final outcome. -/
def callFn (env : Env) (fuel : Nat) (st : St)
    (fnMapA : Option (List (Nat × Nat))) (validatorA : Option (Option Nat))
    (dependsTypesA : Option (List Nat)) (kwargs : List (String × Value))
    (fn : Nat) : St × List Nat × Except Err Value :=
  let ctx := withMaps st fnMapA validatorA dependsTypesA kwargs
  match resolveFn env fuel ctx fn true with
  | (st', Except.ok v) =>
      let c := runCleanup st'.cleanup_stack
      match c.2 with
      | none => (st', c.1, Except.ok v)
      | some ec => (st', c.1, Except.error ec)
  | (st', Except.error e) =>
      let c := runCleanup st'.cleanup_stack
      match c.2 with
      | none => (st', c.1, Except.error e)
      | some ec => (st', c.1, Except.error (chainOnto ec e))

/-- The exception chain produced by a sequence of cleanup failures, in
acquisition order: the first (earliest-acquired) failure is the surfaced
one, each later failure recorded as the context of the previous. -/
def buildChain (ks : List ErrKind) : Option Err :=
  ks.foldr (fun k acc => some (Err.withCtx k acc)) none

/-- The configuration-plus-lock projection of a state: the fields of a
`TinyDiCtx` that resolution must leave unchanged on every path
(`value_map`, `fn_map`, `validator`, `depends_types`) together with the
in-flight set, which is restored on every exit of `_invoke_fn`. -/
def cfg5 (s : St) :
    List (String × Value) × List (Nat × Nat) × Option Nat × List Nat ×
      List Nat :=
  (s.value_map, s.fn_map, s.validator, s.depends_types, s.lock)

/-- A recognized `Depends(d)` marker with the given cache policy. -/
def depM (d : Nat) (uc : Bool) : Marker :=
  ⟨dependsKey, some d, uc⟩

/-- Read a solved keyword argument (total, defaulting to `unit`). -/
def kwv (kw : List (String × Value)) (k : String) : Value :=
  (dlookup kw k).getD Value.unit

/-- A concrete example program exercising the engine: a cached diamond
(4 → 2,3 → 1), uncached double references (6 → 1,1), generator-backed
resources (7, 8, 18), a substitution scenario (13 → 12 → 10, with 11 as
mock), a self-referential cycle (14), a two-annotation consumer of one
cached dependency (15), an awaitable (16), a parameter with no possible
value (17).  Validator 1 tags values with the annotation it was given,
validator 2 always fails. -/
def envA : Env :=
  { prog := fun n =>
      match n with
      | 1 => some ⟨[], fun _ => FnResult.plain (Value.nat 42)⟩
      | 2 => some ⟨[⟨"v", Ann.empty, Dflt.marker (depM 1 true)⟩],
                   fun kw => FnResult.plain (kwv kw "v")⟩
      | 3 => some ⟨[⟨"v", Ann.empty, Dflt.marker (depM 1 true)⟩],
                   fun kw => FnResult.plain (kwv kw "v")⟩
      | 4 => some ⟨[⟨"a", Ann.empty, Dflt.marker (depM 2 true)⟩,
                    ⟨"b", Ann.empty, Dflt.marker (depM 3 true)⟩],
                   fun kw => FnResult.plain (Value.pair (kwv kw "a") (kwv kw "b"))⟩
      | 6 => some ⟨[⟨"a", Ann.empty, Dflt.marker (depM 1 false)⟩,
                    ⟨"b", Ann.empty, Dflt.marker (depM 1 false)⟩],
                   fun kw => FnResult.plain (Value.pair (kwv kw "a") (kwv kw "b"))⟩
      | 7 => some ⟨[], fun _ => FnResult.gen (Value.str "r1") (TdBehavior.fail "m1")⟩
      | 8 => some ⟨[], fun _ => FnResult.gen (Value.str "r2") (TdBehavior.fail "m2")⟩
      | 9 => some ⟨[⟨"a", Ann.empty, Dflt.marker (depM 7 true)⟩,
                    ⟨"b", Ann.empty, Dflt.marker (depM 8 true)⟩],
                   fun kw => FnResult.plain (Value.pair (kwv kw "a") (kwv kw "b"))⟩
      | 10 => some ⟨[], fun _ => FnResult.plain (Value.str "real")⟩
      | 11 => some ⟨[], fun _ => FnResult.plain (Value.str "mock")⟩
      | 12 => some ⟨[⟨"db", Ann.empty, Dflt.marker (depM 10 true)⟩],
                    fun kw => FnResult.plain (kwv kw "db")⟩
      | 13 => some ⟨[⟨"s", Ann.empty, Dflt.marker (depM 12 true)⟩,
                     ⟨"t", Ann.empty, Dflt.marker (depM 10 true)⟩],
                    fun kw => FnResult.plain (Value.pair (kwv kw "s") (kwv kw "t"))⟩
      | 14 => some ⟨[⟨"x", Ann.empty, Dflt.marker (depM 14 true)⟩],
                    fun kw => FnResult.plain (kwv kw "x")⟩
      | 15 => some ⟨[⟨"p", Ann.plain 20, Dflt.marker (depM 1 true)⟩,
                     ⟨"q", Ann.plain 21, Dflt.marker (depM 1 true)⟩],
                    fun kw => FnResult.plain (Value.pair (kwv kw "p") (kwv kw "q"))⟩
      | 16 => some ⟨[], fun _ => FnResult.awaitable (Value.nat 7)⟩
      | 17 => some ⟨[⟨"req", Ann.empty, Dflt.empty⟩],
                    fun _ => FnResult.plain Value.unit⟩
      | 18 => some ⟨[], fun _ => FnResult.gen (Value.str "ok") TdBehavior.stop⟩
      | 19 => some ⟨[⟨"g", Ann.empty, Dflt.marker (depM 18 true)⟩],
                    fun kw => FnResult.plain (kwv kw "g")⟩
      | 20 => some ⟨[⟨"g", Ann.empty, Dflt.marker (depM 7 true)⟩],
                    fun kw => FnResult.plain (kwv kw "g")⟩
      | _ => none
    vals := fun vid ty v =>
      match vid with
      | 1 => Except.ok (Value.tagged ty v)
      | _ => Except.error "bad" }

/-- A projection of the state preserved by the solver of each parameter
is preserved by solving a whole parameter list. -/
theorem solveList_proj {γ : Type} (f : St → γ)
    (solver : St → Param → St × Except Err Value)
    (h : ∀ s p, f (solver s p).1 = f s) (ps : List Param) :
    ∀ st : St, f (solveList solver st ps).1 = f st := by
  induction ps with
  | nil => intro st; simp [solveList]
  | cons p ps ih =>
    intro st
    simp only [solveList]
    split
    · rename_i st2 e hs
      have h1 := h st p
      rw [hs] at h1
      simpa using h1
    · rename_i st2 v hs
      have h1 := h st p
      rw [hs] at h1
      have h2 := ih st2
      split
      · rename_i st3 e hl
        rw [hl] at h2
        simpa using h2.trans h1
      · rename_i st3 rest hl
        rw [hl] at h2
        simpa using h2.trans h1

/-- A predicate on states preserved by the solver of each parameter is
preserved by solving a whole parameter list. -/
theorem solveList_mono (Q : St → Prop)
    (solver : St → Param → St × Except Err Value)
    (h : ∀ s p, Q s → Q (solver s p).1) (ps : List Param) :
    ∀ st : St, Q st → Q (solveList solver st ps).1 := by
  induction ps with
  | nil => intro st hq; simpa [solveList] using hq
  | cons p ps ih =>
    intro st hq
    simp only [solveList]
    split
    · rename_i st2 e hs
      have h1 := h st p hq
      rw [hs] at h1
      simpa using h1
    · rename_i st2 v hs
      have h1 := h st p hq
      rw [hs] at h1
      have h2 := ih st2 h1
      split
      · rename_i st3 e hl
        rw [hl] at h2
        simpa using h2
      · rename_i st3 rest hl
        rw [hl] at h2
        simpa using h2

/-- Every operation of the engine leaves the configuration fields
unchanged and restores the in-flight set on every exit path. -/
theorem step_cfg5 (env : Env) :
    ∀ (fuel : Nat) (c : CallK) (st : St),
      cfg5 (step env fuel c st).1 = cfg5 st := by
  intro fuel
  induction fuel with
  | zero => intro c st; simp [step]
  | succ n ih =>
    intro c st
    cases c with
    | resolve fn0 uc =>
      cases uc with
      | false =>
        simpa only [step, Bool.false_eq_true, if_false]
          using ih (CallK.invoke (subst1 st fn0)) st
      | true =>
        simp only [step, if_true]
        split
        · simp
        · split
          · rename_i hc st2 v hi
            have h1 := ih (CallK.invoke (subst1 st fn0)) st
            rw [hi] at h1
            simpa [cfg5] using h1
          · rename_i hc st2 e hi
            have h1 := ih (CallK.invoke (subst1 st fn0)) st
            rw [hi] at h1
            simpa using h1
    | invoke fn =>
      by_cases hl : fn ∈ st.lock
      · simp [step, hl]
      · simp only [step, if_neg hl]
        split
        · simp [cfg5]
        · rename_i f hp
          have hsl := solveList_proj cfg5 (fun s p => step env n (CallK.solve p) s)
            (fun s p => ih (CallK.solve p) s) f.params
            { st with lock := fn :: st.lock }
          split
          · rename_i st2 e hv
            rw [hv] at hsl
            simp only [cfg5, Prod.mk.injEq] at hsl
            obtain ⟨h1, h2, h3, h4, h5⟩ := hsl
            simp [cfg5, h1, h2, h3, h4, h5]
          · rename_i st2 kwargs hv
            rw [hv] at hsl
            simp only [cfg5, Prod.mk.injEq] at hsl
            obtain ⟨h1, h2, h3, h4, h5⟩ := hsl
            split <;> simp [cfg5, h1, h2, h3, h4, h5]
    | solve p =>
      simp only [step]
      split
      · rename_i om m hm
        split
        · simp
        · rename_i ot f hf
          split
          · rename_i st2 v hs
            have h1 := ih (CallK.resolve f m.useCache) st
            rw [hs] at h1
            simpa using h1
          · rename_i st2 e hs
            have h1 := ih (CallK.resolve f m.useCache) st
            rw [hs] at h1
            simpa using h1
      · split
        · simp
        · split <;> simp

/-- The in-flight set is restored on every exit path of every operation. -/
theorem step_lock (env : Env) (fuel : Nat) (c : CallK) (st : St) :
    (step env fuel c st).1.lock = st.lock :=
  congrArg (fun t => t.2.2.2.2) (step_cfg5 env fuel c st)

/-- Resolution never changes `value_map`. -/
theorem step_value_map (env : Env) (fuel : Nat) (c : CallK) (st : St) :
    (step env fuel c st).1.value_map = st.value_map :=
  congrArg (fun t => t.1) (step_cfg5 env fuel c st)

/-- Resolution never changes `fn_map`. -/
theorem step_fn_map (env : Env) (fuel : Nat) (c : CallK) (st : St) :
    (step env fuel c st).1.fn_map = st.fn_map :=
  congrArg (fun t => t.2.1) (step_cfg5 env fuel c st)

/-- Resolution never changes the validator. -/
theorem step_validator (env : Env) (fuel : Nat) (c : CallK) (st : St) :
    (step env fuel c st).1.validator = st.validator :=
  congrArg (fun t => t.2.2.1) (step_cfg5 env fuel c st)

/-- Memo-cache entries are never removed or overwritten by any
operation. -/
theorem step_cache_mono (env : Env) :
    ∀ (fuel : Nat) (c : CallK) (st : St) (k : Nat) (v : Value),
      dlookup st.cache k = some v →
      dlookup (step env fuel c st).1.cache k = some v := by
  intro fuel
  induction fuel with
  | zero => intro c st k v h; simpa [step] using h
  | succ n ih =>
    intro c st k v hk
    cases c with
    | resolve fn0 uc =>
      cases uc with
      | false =>
        simpa only [step, Bool.false_eq_true, if_false]
          using ih (CallK.invoke (subst1 st fn0)) st k v hk
      | true =>
        simp only [step, if_true]
        split
        · simpa using hk
        · rename_i hc
          split
          · rename_i st2 v2 hi
            have h1 := ih (CallK.invoke (subst1 st fn0)) st k v hk
            rw [hi] at h1
            have hne : k ≠ subst1 st fn0 := by
              intro he
              rw [he, hc] at hk
              exact Option.noConfusion hk
            simpa [dlookup, hne] using h1
          · rename_i st2 e hi
            have h1 := ih (CallK.invoke (subst1 st fn0)) st k v hk
            rw [hi] at h1
            simpa using h1
    | invoke fn =>
      by_cases hl : fn ∈ st.lock
      · simpa [step, hl] using hk
      · simp only [step, if_neg hl]
        split
        · simpa using hk
        · rename_i f hp
          have hsl := solveList_mono (fun s => dlookup s.cache k = some v)
            (fun s p => step env n (CallK.solve p) s)
            (fun s p hq => ih (CallK.solve p) s k v hq) f.params
            { st with lock := fn :: st.lock } (by simpa using hk)
          split
          · rename_i st2 e hv
            rw [hv] at hsl
            simpa using hsl
          · rename_i st2 kwargs hv
            rw [hv] at hsl
            split <;> simpa using hsl
    | solve p =>
      simp only [step]
      split
      · rename_i om m hm
        split
        · simpa using hk
        · rename_i ot f hf
          split
          · rename_i st2 v2 hs
            have h1 := ih (CallK.resolve f m.useCache) st k v hk
            rw [hs] at h1
            simpa using h1
          · rename_i st2 e hs
            have h1 := ih (CallK.resolve f m.useCache) st k v hk
            rw [hs] at h1
            simpa using h1
      · split
        · simpa using hk
        · split <;> simpa using hk

/-- Lookup in a concatenation of Python-dict association lists: the left
(override) side wins. -/
theorem dlookup_append {α β : Type} [DecidableEq α]
    (a b : List (α × β)) (k : α) :
    dlookup (a ++ b) k = (dlookup a k).or (dlookup b k) := by
  induction a with
  | nil => simp [dlookup]
  | cons x rest ih =>
    rcases x with ⟨k2, v⟩
    by_cases h : k = k2 <;> simp [dlookup, h, ih]

/-- The `_cleanup` loop resumes every processed entry exactly once, in
processing order, regardless of failures. -/
theorem cleanupLoop_log (l : List GenEntry) (exc : Option Err) :
    (cleanupLoop l exc).1 = l.map GenEntry.fn := by
  induction l generalizing exc with
  | nil => simp [cleanupLoop]
  | cons g rest ih => simp [cleanupLoop, ih]

/-- The failure accumulated by the `_cleanup` loop folds each newly
raised failure over the previous one. -/
theorem cleanupLoop_err (l : List GenEntry) (exc : Option Err) :
    (cleanupLoop l exc).2 =
      (l.filterMap resumeOnce).foldl (fun acc k => some (Err.withCtx k acc))
        exc := by
  induction l generalizing exc with
  | nil => simp [cleanupLoop]
  | cons g rest ih =>
    cases hg : resumeOnce g <;> simp [cleanupLoop, hg, ih]

/-- `_cleanup` resumes the whole teardown stack in reverse insertion
order and raises the chain of failures in acquisition order. -/
theorem runCleanup_spec (stack : List GenEntry) :
    (runCleanup stack).1 = stack.reverse.map GenEntry.fn
    ∧ (runCleanup stack).2 = buildChain (stack.filterMap resumeOnce) := by
  constructor
  · simpa [runCleanup] using cleanupLoop_log stack.reverse none
  · have h := cleanupLoop_err stack.reverse none
    rw [runCleanup, h, List.filterMap_reverse, List.foldl_reverse]
    rfl

/-- C3: at scope exit the cleanup ledger resumes every entry of the
teardown stack exactly once, in exact reverse order of insertion, and is
never short-circuited by a failure; the failure finally raised is the
chain of the failing producers in acquisition order; in particular, for
two producers P1 acquired before P2 that both fail during finalization,
the single raised failure is P1's, with P2's failure recorded as its
chained context. -/
theorem c3_cleanup_reverse_order_chaining :
    (∀ stack : List GenEntry,
      (runCleanup stack).1 = stack.reverse.map GenEntry.fn)
    ∧ (∀ stack : List GenEntry,
        (runCleanup stack).2 = buildChain (stack.filterMap resumeOnce))
    ∧ (∀ (f1 f2 : Nat) (m1 m2 : String) (b1 b2 : Bool),
        runCleanup [⟨f1, b1, TdBehavior.fail m1⟩, ⟨f2, b2, TdBehavior.fail m2⟩]
          = ([f2, f1],
             some (Err.chain (ErrKind.resumeFail f1 m1)
               (Err.mk (ErrKind.resumeFail f2 m2))))) := by
  refine ⟨fun stack => (runCleanup_spec stack).1,
          fun stack => (runCleanup_spec stack).2,
          fun f1 f2 m1 m2 b1 b2 => ?_⟩
  simp [runCleanup, cleanupLoop, resumeOnce, Err.withCtx]

/-- C6: `with_maps` merges named values into `supplied_values` with
overrides winning; a provided substitution table merges into the base one
with overrides winning, and the base table is kept unchanged when none is
given; `validator` and `depends_types` are replaced whenever the argument
is provided — even explicitly as none — and kept when omitted. -/
theorem c6_with_maps_composition :
    ∀ (st : St) (fmA : Option (List (Nat × Nat))) (vA : Option (Option Nat))
      (dA : Option (List Nat)) (kw : List (String × Value)),
      (∀ k, dlookup (withMaps st fmA vA dA kw).value_map k =
        (dlookup kw k).or (dlookup st.value_map k))
      ∧ (withMaps st none vA dA kw).fn_map = st.fn_map
      ∧ (∀ m k, dlookup (withMaps st (some m) vA dA kw).fn_map k =
          (dlookup m k).or (dlookup st.fn_map k))
      ∧ (∀ v, (withMaps st fmA (some v) dA kw).validator = v)
      ∧ (withMaps st fmA none dA kw).validator = st.validator
      ∧ (∀ d, (withMaps st fmA vA (some d) kw).depends_types = d)
      ∧ (withMaps st fmA vA none kw).depends_types = st.depends_types := by
  intro st fmA vA dA kw
  refine ⟨fun k => ?_, rfl, fun m k => ?_, fun v => rfl, rfl, fun d => rfl, rfl⟩
  · by_cases hkw : kw = []
    · subst hkw; simp [withMaps, dlookup]
    · simp [withMaps, hkw, dlookup_append]
  · simp [withMaps, dlookup_append]

/-- C7: every composed context starts with freshly initialized private
state — a memo cache holding only the self-reference entry, an empty
in-flight set and an empty teardown stack — and a top-level `call_fn` is
completely independent of the private resolution state of the base
context, so memo and in-flight data are never shared across independent
top-level calls. -/
theorem c7_private_state_fresh_and_unshared :
    (∀ (st : St) (fmA : Option (List (Nat × Nat))) (vA : Option (Option Nat))
      (dA : Option (List Nat)) (kw : List (String × Value)),
      (withMaps st fmA vA dA kw).cache = [(tinyDiCtxKey, Value.ctxRef)]
      ∧ (withMaps st fmA vA dA kw).lock = []
      ∧ (withMaps st fmA vA dA kw).cleanup_stack = []
      ∧ (withMaps st fmA vA dA kw).invocations = [])
    ∧ (∀ (env : Env) (fuel : Nat) (st : St) (fmA : Option (List (Nat × Nat)))
        (vA : Option (Option Nat)) (dA : Option (List Nat))
        (kw : List (String × Value)) (fn : Nat) (c : List (Nat × Value))
        (l : List Nat) (cs : List GenEntry) (inv : List Nat),
        callFn env fuel
            { st with
                cache := c
                lock := l
                cleanup_stack := cs
                invocations := inv } fmA vA dA kw fn
          = callFn env fuel st fmA vA dA kw fn) :=
  ⟨fun _ _ _ _ _ => ⟨rfl, rfl, rfl, rfl⟩,
   fun _ _ _ _ _ _ _ _ _ _ _ _ => rfl⟩

/-- C1: `_solve_arg` picks a parameter's value by fixed precedence: a
recognized dependency marker (in the default position or attached via
`Annotated` metadata) is resolved, ignoring any supplied value and static
default for that parameter; otherwise a supplied value from
`supplied_values` is used even when a static default exists; otherwise
the static default is used; otherwise resolution fails with the
missing-value error. -/
theorem c1_solve_arg_precedence (env : Env) (fuel : Nat) (st : St)
    (p : Param) (a : Option Nat) (d : Dflt)
    (hu : unwrapP st.depends_types p = (a, d)) :
    (∀ m, recognizedM st.depends_types d = some m →
      solveArg env (fuel + 1) st p =
        (match markerTarget m a with
         | none => (st, Except.error (Err.mk (ErrKind.invalidDependency p.name)))
         | some f =>
            match resolveFn env fuel st f m.useCache with
            | (st2, Except.ok v) => (st2, validate env st2 a v)
            | (st2, Except.error e) => (st2, Except.error e)))
    ∧ (recognizedM st.depends_types d = none →
        ∀ v, dlookup st.value_map p.name = some v →
          solveArg env (fuel + 1) st p = (st, validate env st a v))
    ∧ (recognizedM st.depends_types d = none →
        dlookup st.value_map p.name = none →
        ∀ v, p.dflt = Dflt.value v →
          solveArg env (fuel + 1) st p = (st, validate env st a v))
    ∧ (recognizedM st.depends_types d = none →
        dlookup st.value_map p.name = none →
        p.dflt = Dflt.empty →
          solveArg env (fuel + 1) st p =
            (st, Except.error (Err.mk (ErrKind.missingValue p.name)))) := by
  refine ⟨fun m hm => ?_, fun hm v hv => ?_, fun hm hv v hd => ?_,
    fun hm hv hd => ?_⟩
  · simp [solveArg, resolveFn, step, hu, hm]
  · simp [solveArg, step, hu, hm, hv]
  · simp [solveArg, step, hu, hm, hv, hd]
  · simp [solveArg, step, hu, hm, hv, hd]

/-- C1 witness: a parameter whose default is a recognized `Depends(1)`
marker resolves through the marker (its annotation `10` being what a
validator would see). -/
theorem c1_solve_arg_precedence_witness :
    unwrapP emptyCtx.depends_types
        ⟨"value", Ann.plain 10, Dflt.marker (depM 1 true)⟩
      = (some 10, Dflt.marker (depM 1 true))
    ∧ solveArg envA 11 emptyCtx
        ⟨"value", Ann.plain 10, Dflt.marker (depM 1 true)⟩
      = ({ emptyCtx with
            cache := [(1, Value.nat 42), (tinyDiCtxKey, Value.ctxRef)]
            invocations := [1] }, Except.ok (Value.nat 42)) :=
  ⟨rfl,
   ((c1_solve_arg_precedence envA 10 emptyCtx
      ⟨"value", Ann.plain 10, Dflt.marker (depM 1 true)⟩
      (some 10) (Dflt.marker (depM 1 true)) rfl).1
      (depM 1 true) rfl).trans rfl⟩

/-- C2: within one resolution tree every cacheable reference to a
callable is served from the memo cache after the first invocation (cache
hit returns the memoized value with no state change and no body
invocation; cache miss invokes once and stores the result under the
substituted identity; entries are never dropped), while a reference with
caching disabled invokes the callable each time; concretely, the diamond
`4 → {2, 3} → 1` invokes callable 1 exactly once, while the uncached
double reference `6 → 1, 1` invokes it twice. -/
theorem c2_memoized_single_invocation :
    (∀ (env : Env) (fuel : Nat) (st : St) (fn : Nat) (v : Value),
      dlookup st.cache (subst1 st fn) = some v →
        resolveFn env (fuel + 1) st fn true = (st, Except.ok v))
    ∧ (∀ (env : Env) (fuel : Nat) (st : St) (fn : Nat),
        dlookup st.cache (subst1 st fn) = none →
          resolveFn env (fuel + 1) st fn true =
            (match invokeFn env fuel st (subst1 st fn) with
             | (st2, Except.ok v) =>
                ({ st2 with cache := (subst1 st fn, v) :: st2.cache },
                 Except.ok v)
             | (st2, Except.error e) => (st2, Except.error e)))
    ∧ (∀ (env : Env) (fuel : Nat) (st : St) (fn : Nat),
        resolveFn env (fuel + 1) st fn false =
          invokeFn env fuel st (subst1 st fn))
    ∧ (∀ (env : Env) (fuel : Nat) (c : CallK) (st : St) (k : Nat) (v : Value),
        dlookup st.cache k = some v →
          dlookup (step env fuel c st).1.cache k = some v)
    ∧ (callFn envA 50 emptyCtx none none none [] 4).1.invocations = [1, 2, 3, 4]
    ∧ (callFn envA 50 emptyCtx none none none [] 6).1.invocations
        = [1, 1, 6] := by
  refine ⟨fun env fuel st fn v hc => ?_, fun env fuel st fn hc => ?_,
    fun env fuel st fn => ?_,
    fun env fuel c st k v h => step_cache_mono env fuel c st k v h, rfl, rfl⟩
  · simp [resolveFn, step, hc]
  · simp [resolveFn, invokeFn, step, hc]
  · simp [resolveFn, invokeFn, step]

/-- C2 witness: the seeded self-reference entry is a cache hit — the
context injects itself without invoking anything. -/
theorem c2_memoized_single_invocation_witness :
    dlookup emptyCtx.cache (subst1 emptyCtx tinyDiCtxKey) = some Value.ctxRef
    ∧ resolveFn envA 1 emptyCtx tinyDiCtxKey true
        = (emptyCtx, Except.ok Value.ctxRef) :=
  ⟨rfl, c2_memoized_single_invocation.1 envA 0 emptyCtx tinyDiCtxKey
    Value.ctxRef rfl⟩

/-- C4: if the callable's identity is already in the in-flight set,
`_invoke_fn` fails immediately with the circular-dependency error naming
that callable and changes nothing; otherwise the identity is added to
the in-flight set before any parameter is solved; the in-flight set is
restored on every exit path of every operation; and a self-referential
program fails with the circular-dependency error end to end. -/
theorem c4_cycle_guard :
    (∀ (env : Env) (fuel : Nat) (st : St) (fn : Nat),
      fn ∈ st.lock →
        invokeFn env (fuel + 1) st fn =
          (st, Except.error (Err.mk (ErrKind.circular fn))))
    ∧ (∀ (env : Env) (fuel : Nat) (st : St) (fn : Nat) (f : Fn),
        fn ∉ st.lock → env.prog fn = some f →
          invokeFn env (fuel + 1) st fn =
            (match solveList (fun s q => solveArg env fuel s q)
                { st with lock := fn :: st.lock } f.params with
             | (st2, Except.error e) =>
                ({ st2 with lock := st2.lock.erase fn }, Except.error e)
             | (st2, Except.ok kwargs) =>
                match f.body kwargs with
                | FnResult.plain v =>
                    ({ st2 with
                        lock := st2.lock.erase fn
                        invocations := st2.invocations ++ [fn] },
                     Except.ok v)
                | FnResult.gen v td =>
                    ({ st2 with
                        cleanup_stack := st2.cleanup_stack ++ [⟨fn, false, td⟩]
                        lock := st2.lock.erase fn
                        invocations := st2.invocations ++ [fn] },
                     Except.ok v)
                | FnResult.agen v td =>
                    ({ st2 with
                        cleanup_stack := st2.cleanup_stack ++ [⟨fn, true, td⟩]
                        lock := st2.lock.erase fn
                        invocations := st2.invocations ++ [fn] },
                     Except.ok v)
                | FnResult.awaitable v =>
                    ({ st2 with
                        lock := st2.lock.erase fn
                        invocations := st2.invocations ++ [fn] },
                     Except.ok v)
                | FnResult.raises msg =>
                    ({ st2 with
                        lock := st2.lock.erase fn
                        invocations := st2.invocations ++ [fn] },
                     Except.error (Err.mk (ErrKind.userError msg)))))
    ∧ (∀ (env : Env) (fuel : Nat) (c : CallK) (st : St),
        (step env fuel c st).1.lock = st.lock)
    ∧ (callFn envA 50 emptyCtx none none none [] 14).2.2
        = Except.error (Err.mk (ErrKind.circular 14)) := by
  refine ⟨fun env fuel st fn h => ?_, fun env fuel st fn f hnl hp => ?_,
    fun env fuel c st => step_lock env fuel c st, rfl⟩
  · simp [invokeFn, step, h]
  · simp only [invokeFn, solveArg, step, if_neg hnl, hp]

/-- C4 witness: invoking callable 5 while it is already in flight fails
immediately with the circular-dependency error naming it. -/
theorem c4_cycle_guard_witness :
    (5 : Nat) ∈ ({ emptyCtx with lock := [5] } : St).lock
    ∧ invokeFn envA 1 { emptyCtx with lock := [5] } 5
        = ({ emptyCtx with lock := [5] },
           Except.error (Err.mk (ErrKind.circular 5))) :=
  ⟨by decide,
   c4_cycle_guard.1 envA 0 { emptyCtx with lock := [5] } 5 (by decide)⟩

/-- C5: `call_fn` always runs the cleanup ledger over the whole final
teardown stack; a successful resolution with clean teardown returns the
value; a cleanup failure supersedes a successful resolution result; a
resolution failure with clean teardown is propagated unchanged; and when
resolution failed and cleanup also fails, the surfaced failure is the
cleanup failure with the resolution failure as its chained context — a
single final failure object keeping both visible. -/
theorem c5_entry_cleanup_combination (env : Env) (fuel : Nat) (base : St)
    (fmA : Option (List (Nat × Nat))) (vA : Option (Option Nat))
    (dA : Option (List Nat)) (kw : List (String × Value)) (fn : Nat)
    (st2 : St) (r : Except Err Value)
    (hres : resolveFn env fuel (withMaps base fmA vA dA kw) fn true
      = (st2, r)) :
    (callFn env fuel base fmA vA dA kw fn).2.1
        = st2.cleanup_stack.reverse.map GenEntry.fn
    ∧ (∀ v, r = Except.ok v → (runCleanup st2.cleanup_stack).2 = none →
        (callFn env fuel base fmA vA dA kw fn).2.2 = Except.ok v)
    ∧ (∀ v ec, r = Except.ok v →
        (runCleanup st2.cleanup_stack).2 = some ec →
        (callFn env fuel base fmA vA dA kw fn).2.2 = Except.error ec)
    ∧ (∀ e, r = Except.error e → (runCleanup st2.cleanup_stack).2 = none →
        (callFn env fuel base fmA vA dA kw fn).2.2 = Except.error e)
    ∧ (∀ e ec, r = Except.error e →
        (runCleanup st2.cleanup_stack).2 = some ec →
        (callFn env fuel base fmA vA dA kw fn).2.2
          = Except.error (Err.chain ec.kindOf e)) := by
  have hlog := (runCleanup_spec st2.cleanup_stack).1
  refine ⟨?_, fun v hv hc => ?_, fun v ec hv hc => ?_, fun e hv hc => ?_,
    fun e ec hv hc => ?_⟩
  · simp only [callFn, hres]
    cases r with
    | ok v =>
      cases hc : (runCleanup st2.cleanup_stack).2 <;> simp [hc, hlog]
    | error e =>
      cases hc : (runCleanup st2.cleanup_stack).2 <;> simp [hc, hlog]
  · subst hv; simp [callFn, hres, hc]
  · subst hv; simp [callFn, hres, hc]
  · subst hv; simp [callFn, hres, hc]
  · subst hv; simp [callFn, hres, hc, chainOnto]

/-- C5 witness: resolving callable 7 succeeds with a paused producer on
the stack; its teardown failure supersedes the successful result. -/
theorem c5_entry_cleanup_combination_witness :
    resolveFn envA 50 (withMaps emptyCtx none none none []) 7 true
      = ({ emptyCtx with
            cache := [(7, Value.str "r1"), (tinyDiCtxKey, Value.ctxRef)]
            cleanup_stack := [⟨7, false, TdBehavior.fail "m1"⟩]
            invocations := [7] }, Except.ok (Value.str "r1"))
    ∧ (callFn envA 50 emptyCtx none none none [] 7).2.2
        = Except.error (Err.mk (ErrKind.resumeFail 7 "m1")) :=
  ⟨rfl,
   (c5_entry_cleanup_combination envA 50 emptyCtx none none none [] 7
      { emptyCtx with
          cache := [(7, Value.str "r1"), (tinyDiCtxKey, Value.ctxRef)]
          cleanup_stack := [⟨7, false, TdBehavior.fail "m1"⟩]
          invocations := [7] } (Except.ok (Value.str "r1")) rfl).2.2.1
      (Value.str "r1") (Err.mk (ErrKind.resumeFail 7 "m1")) rfl rfl⟩

/-- C8: `_resolve_fn` applies the substitution table before the cache
lookup, the cycle guard and the invocation: with `fn ↦ g` in the table,
resolution of `fn` is exactly cache lookup, memoization and invocation
of `g` (conjunct 1), the cycle guard fires on `g` (conjunct 2), and in
the concrete nested scenario `13 → 12 → 10` with `10 ↦ 11` every marker
targeting 10 — at any depth — invokes 11 instead and the memo cache is
keyed by 11. -/
theorem c8_substitution_applied_first :
    (∀ (env : Env) (fuel : Nat) (st : St) (fn g : Nat) (uc : Bool),
      dlookup st.fn_map fn = some g →
        resolveFn env (fuel + 1) st fn uc =
          (if uc then
            match dlookup st.cache g with
            | some v => (st, Except.ok v)
            | none =>
                match invokeFn env fuel st g with
                | (st2, Except.ok v) =>
                    ({ st2 with cache := (g, v) :: st2.cache }, Except.ok v)
                | (st2, Except.error e) => (st2, Except.error e)
           else invokeFn env fuel st g))
    ∧ (∀ (env : Env) (fuel : Nat) (st : St) (fn g : Nat),
        dlookup st.fn_map fn = some g → g ∈ st.lock →
          dlookup st.cache g = none →
          resolveFn env (fuel + 2) st fn true =
            (st, Except.error (Err.mk (ErrKind.circular g))))
    ∧ (callFn envA 50 emptyCtx (some [(10, 11)]) none none [] 13).2.2
        = Except.ok (Value.pair (Value.str "mock") (Value.str "mock"))
    ∧ (callFn envA 50 emptyCtx (some [(10, 11)]) none none [] 13).1.invocations
        = [11, 12, 13] := by
  refine ⟨fun env fuel st fn g uc hm => ?_,
    fun env fuel st fn g hm hgl hc => ?_, rfl, rfl⟩
  · simp [resolveFn, invokeFn, step, subst1, hm]
  · simp [resolveFn, invokeFn, step, subst1, hm, hgl, hc]

/-- C8 witness: with `10 ↦ 11` in the substitution table, resolving 10
invokes and memoizes 11. -/
theorem c8_substitution_applied_first_witness :
    dlookup ({ emptyCtx with fn_map := [(10, 11)] } : St).fn_map 10 = some 11
    ∧ resolveFn envA 6 { emptyCtx with fn_map := [(10, 11)] } 10 true
      = ({ emptyCtx with
            fn_map := [(10, 11)]
            cache := [(11, Value.str "mock"), (tinyDiCtxKey, Value.ctxRef)]
            invocations := [11] }, Except.ok (Value.str "mock")) :=
  ⟨rfl,
   (c8_substitution_applied_first.1 envA 5
      { emptyCtx with fn_map := [(10, 11)] } 10 11 true rfl).trans rfl⟩

/-- C9: `_invoke_fn` classifies the result of a successfully invoked
callable into exactly one of the cases: a plain value is returned as-is
leaving the teardown stack unchanged; a (sync or async) generator is
advanced to its first yield, the pre-yield value becomes the resolved
value and the paused producer is appended to the teardown stack; an
awaitable is awaited in place and its result returned, leaving the
teardown stack unchanged. -/
theorem c9_invocation_classification (env : Env) (fuel : Nat) (st : St)
    (fn : Nat) (f : Fn) (st2 : St) (kwargs : List (String × Value))
    (hnl : fn ∉ st.lock) (hp : env.prog fn = some f)
    (hsolve : solveList (fun s q => solveArg env fuel s q)
        { st with lock := fn :: st.lock } f.params
      = (st2, Except.ok kwargs)) :
    (∀ v, f.body kwargs = FnResult.plain v →
      invokeFn env (fuel + 1) st fn =
        ({ st2 with
            lock := st2.lock.erase fn
            invocations := st2.invocations ++ [fn] }, Except.ok v))
    ∧ (∀ v td, f.body kwargs = FnResult.gen v td →
        invokeFn env (fuel + 1) st fn =
          ({ st2 with
              cleanup_stack := st2.cleanup_stack ++ [⟨fn, false, td⟩]
              lock := st2.lock.erase fn
              invocations := st2.invocations ++ [fn] }, Except.ok v))
    ∧ (∀ v td, f.body kwargs = FnResult.agen v td →
        invokeFn env (fuel + 1) st fn =
          ({ st2 with
              cleanup_stack := st2.cleanup_stack ++ [⟨fn, true, td⟩]
              lock := st2.lock.erase fn
              invocations := st2.invocations ++ [fn] }, Except.ok v))
    ∧ (∀ v, f.body kwargs = FnResult.awaitable v →
        invokeFn env (fuel + 1) st fn =
          ({ st2 with
              lock := st2.lock.erase fn
              invocations := st2.invocations ++ [fn] }, Except.ok v)) := by
  simp only [solveArg] at hsolve
  refine ⟨fun v hb => ?_, fun v td hb => ?_, fun v td hb => ?_,
    fun v hb => ?_⟩ <;>
    simp [invokeFn, step, if_neg hnl, hp, hsolve, hb]

/-- C9 witness: callable 16 returns an awaitable whose awaited value 7
is the resolved value, with the teardown stack untouched. -/
theorem c9_invocation_classification_witness :
    envA.prog 16 = some ⟨[], fun _ => FnResult.awaitable (Value.nat 7)⟩
    ∧ invokeFn envA 1 emptyCtx 16
      = ({ emptyCtx with invocations := [16] }, Except.ok (Value.nat 7)) :=
  ⟨rfl,
   ((c9_invocation_classification envA 0 emptyCtx 16
      ⟨[], fun _ => FnResult.awaitable (Value.nat 7)⟩
      { emptyCtx with lock := [16] } [] (by decide) rfl rfl).2.2.2
      (Value.nat 7) rfl).trans rfl⟩

/-- C10: the memo cache stores the raw invocation result while the value
handed to the parameter is validated against that parameter's own
annotation — on a cache hit the cached raw value is re-validated at the
site (conjunct 1), on a miss the raw value is memoized and the validated
one returned (conjunct 2); supplied values and static defaults are also
passed through the configured validator with the parameter's annotation
(conjuncts 3 and 4); concretely, two parameters with annotations 20 and
21 sharing cached dependency 1 receive independently tagged values while
the cache keeps the raw 42. -/
theorem c10_validation_each_site :
    (∀ (env : Env) (fuel : Nat) (st : St) (p : Param) (a : Option Nat)
       (d : Dflt) (m : Marker) (f : Nat) (v : Value),
      unwrapP st.depends_types p = (a, d) →
      recognizedM st.depends_types d = some m →
      markerTarget m a = some f →
      m.useCache = true →
      dlookup st.cache (subst1 st f) = some v →
        solveArg env (fuel + 2) st p = (st, validate env st a v))
    ∧ (∀ (env : Env) (fuel : Nat) (st : St) (p : Param) (a : Option Nat)
        (d : Dflt) (m : Marker) (f : Nat) (v : Value) (st2 : St),
        unwrapP st.depends_types p = (a, d) →
        recognizedM st.depends_types d = some m →
        markerTarget m a = some f →
        m.useCache = true →
        dlookup st.cache (subst1 st f) = none →
        invokeFn env fuel st (subst1 st f) = (st2, Except.ok v) →
          solveArg env (fuel + 2) st p =
            ({ st2 with cache := (subst1 st f, v) :: st2.cache },
             validate env { st2 with cache := (subst1 st f, v) :: st2.cache }
               a v))
    ∧ (∀ (env : Env) (fuel : Nat) (st : St) (p : Param) (a : Option Nat)
        (d : Dflt) (v : Value) (vid : Nat),
        unwrapP st.depends_types p = (a, d) →
        recognizedM st.depends_types d = none →
        dlookup st.value_map p.name = some v →
        st.validator = some vid →
          solveArg env (fuel + 1) st p =
            (st, match env.vals vid a v with
                 | Except.ok w => Except.ok w
                 | Except.error msg =>
                     Except.error (Err.mk (ErrKind.validation msg))))
    ∧ (∀ (env : Env) (fuel : Nat) (st : St) (p : Param) (a : Option Nat)
        (d : Dflt) (v : Value) (vid : Nat),
        unwrapP st.depends_types p = (a, d) →
        recognizedM st.depends_types d = none →
        dlookup st.value_map p.name = none →
        p.dflt = Dflt.value v →
        st.validator = some vid →
          solveArg env (fuel + 1) st p =
            (st, match env.vals vid a v with
                 | Except.ok w => Except.ok w
                 | Except.error msg =>
                     Except.error (Err.mk (ErrKind.validation msg))))
    ∧ (callFn envA 50 emptyCtx none (some (some 1)) none [] 15).2.2
        = Except.ok (Value.pair (Value.tagged (some 20) (Value.nat 42))
            (Value.tagged (some 21) (Value.nat 42)))
    ∧ dlookup
        (callFn envA 50 emptyCtx none (some (some 1)) none [] 15).1.cache 1
        = some (Value.nat 42) := by
  refine ⟨fun env fuel st p a d m f v hu hm ht huc hc => ?_,
    fun env fuel st p a d m f v st2 hu hm ht huc hc hi => ?_,
    fun env fuel st p a d v vid hu hm hv hvd => ?_,
    fun env fuel st p a d v vid hu hm hv hd hvd => ?_, rfl, rfl⟩
  · simp [solveArg, resolveFn, step, hu, hm, ht, huc, hc]
  · simp only [invokeFn] at hi
    simp [solveArg, resolveFn, step, hu, hm, ht, huc, hc, hi]
  · simp [solveArg, step, hu, hm, hv, validate, hvd]
  · simp [solveArg, step, hu, hm, hv, hd, validate, hvd]

/-- C10 witness: a cache hit on raw value 42 is validated at the site
with the parameter's own annotation 20, yielding the tagged value. -/
theorem c10_validation_each_site_witness :
    dlookup ({ emptyCtx with
        validator := some 1
        cache := [(1, Value.nat 42), (tinyDiCtxKey, Value.ctxRef)] } : St).cache
        1 = some (Value.nat 42)
    ∧ solveArg envA 7
        { emptyCtx with
            validator := some 1
            cache := [(1, Value.nat 42), (tinyDiCtxKey, Value.ctxRef)] }
        ⟨"p", Ann.plain 20, Dflt.marker (depM 1 true)⟩
      = ({ emptyCtx with
            validator := some 1
            cache := [(1, Value.nat 42), (tinyDiCtxKey, Value.ctxRef)] },
         Except.ok (Value.tagged (some 20) (Value.nat 42))) :=
  ⟨rfl,
   (c10_validation_each_site.1 envA 5
      { emptyCtx with
          validator := some 1
          cache := [(1, Value.nat 42), (tinyDiCtxKey, Value.ctxRef)] }
      ⟨"p", Ann.plain 20, Dflt.marker (depM 1 true)⟩
      (some 20) (Dflt.marker (depM 1 true)) (depM 1 true) 1 (Value.nat 42)
      rfl rfl rfl rfl rfl).trans rfl⟩

end TinyDi
